import Mathlib

/-!
Shallow embedding of the cumulative-PR dashboard pipeline of `src/app.py`
(repository `git_pr_analysis`), together with theorems checking the
specification's claims about it.  pandas dataframes are modelled as Lean
lists of rows; NaN cells are `Option.none`; the `ast.literal_eval` outcome
on the `requested_reviewers` field is abstracted as an inductive.
-/

namespace PRViz

/-- Calendar data pandas derives from a parsed `merged_at` timestamp: the
year, the 1-based day of the year, and an ordinal linearising the full
timestamp (used only by `sort_values('merged_at')`). -/
structure Timestamp where
  year : Nat
  dayOfYear : Nat
  ord : Nat
deriving Repr, DecidableEq

/-- One element of a parsed reviewer list: a dict carrying a `'login'`
key, a dict without one, or a non-dict value. -/
inductive RevEntry where
  | objWithLogin (login : String)
  | objNoLogin
  | nonObj
deriving Repr, DecidableEq

/-- The `requested_reviewers` CSV field, abstracted at the outcome of
`pd.isna`, the comparison with the two-character empty-list text, and
`ast.literal_eval`: a missing (NaN) cell, the exact empty-list text, a
text on which the parse raises `ValueError` or `SyntaxError`, a text
parsing to a non-list value, or a text parsing to a list of entries. -/
inductive RRField where
  | missing
  | emptyListLiteral
  | parseError
  | nonListValue
  | listValue (entries : List RevEntry)
deriving Repr, DecidableEq

/-- Row of the `all_prs` CSV restricted to the fields the pipeline reads.
Numeric fields are `Option`-valued: `none` models a NaN cell. -/
structure RawRecord where
  userLogin : String
  baseRepoName : String
  merged_at : Option Timestamp
  additions : Option Nat
  deletions : Option Nat
  review_comment_count : Option Nat
  requested_reviewers : RRField
deriving Repr, DecidableEq

/-- The `user_aliases` dictionary of `app.py` (login to display name). -/
def user_aliases : List (String × String) :=
  [("Alex-Mackie", "Alex"), ("DavidMc123", "David"), ("KBodolai", "Kristian"),
   ("SelenaGeo", "Selena"), ("WillBriggs-SI", "Will"), ("adamnoach", "Adam"),
   ("aneeshnaik", "Aneesh"), ("anna-fumagalli", "Anna"), ("euan-si", "Euan"),
   ("magdalena90", "Magda"), ("natborn2", "Nathan"), ("nestorSag", "Nestor"),
   ("oliver-mcf", "Oliver"), ("rob-webster-space-intelligence", "Rob"),
   ("stearp", "Steph"), ("stuartbrown4", "Stuart"), ("wietzesuijker", "Wietze"),
   ("benritchie", "Ben"), ("stviaene-si", "Stig"), ("jam3s-in-space", "James"),
   ("harryC-space-intelligence", "Harry"), ("dp-actions[bot]", "copilot"),
   ("henryspeir", "Henry")]

/-- `Series.map(user_aliases).fillna(original)`: dictionary lookup with
identity fallback for unmapped logins. -/
def userDisplay (login : String) : String :=
  (user_aliases.lookup login).getD login

/-- pandas elementwise comparison `additions <= 30000`: `False` on a NaN
(missing) cell. -/
def additionsLe30000 : Option Nat → Bool
  | none => false
  | some a => a ≤ 30000

/-- Load-time filtering of `df_all_prs` (`app.py` lines 41 and 44): drop
rows authored by the copilot bot, then keep only rows whose `additions`
comparison against 30000 holds (a NaN cell fails it and is dropped). -/
def df_all_prs (raw : List RawRecord) : List RawRecord :=
  (raw.filter (fun r => r.userLogin ≠ "dp-actions[bot]")).filter
    (fun r => additionsLe30000 r.additions)

/-- The `assign_source` function of `app.py`. -/
def assign_source (repoName : String) : String :=
  if repoName = "mapper-project-template" then "mapper_template"
  else if repoName = "space-intelligence" then "space_intelligence"
  else "qgis_plugins"

/-- The `calculate_weight` function of `app.py`; `fillna(0)` is modelled
by `Option.getD 0`.  The result is an `Int` because `net_lines` may be
negative.  The function is total by construction: it returns a value for
every record and every metric string. -/
def calculate_weight (r : RawRecord) (weight_by : String) : Int :=
  if weight_by = "pr_count" then 1
  else if weight_by = "lines_added" then ((r.additions.getD 0 : Nat) : Int)
  else if weight_by = "net_lines" then
    ((r.additions.getD 0 : Nat) : Int) - ((r.deletions.getD 0 : Nat) : Int)
  else if weight_by = "comments" then ((r.review_comment_count.getD 0 : Nat) : Int) + 1
  else 1

/-- One merged record reduced to what the cumulative sums read: the
derived `day_of_year` and the weight under the active metric. -/
structure Event where
  day_of_year : Nat
  weight : Int
deriving Repr, DecidableEq

/-- pandas `Series.max()` over natural numbers (0 on an empty list; the
pipelines only take maxima of nonempty series). -/
def listMaxNat : List Nat → Nat
  | [] => 0
  | a :: l => max a (listMaxNat l)

/-- `year_df['day_of_year'].max()`: the group's `max_day`. -/
def maxDay (evs : List Event) : Nat := listMaxNat (evs.map (·.day_of_year))

/-- `year_df[year_df['day_of_year'] <= day]['weight'].sum()`. -/
def cumulativeAt (evs : List Event) (day : Nat) : Int :=
  ((evs.filter (fun e => e.day_of_year ≤ day)).map (·.weight)).sum

/-- One row of `df_cumulative`: `day_of_year`, the cumulative value, and
the group key (`str(year)` or the user display name). -/
structure CumRow where
  day_of_year : Nat
  value : Int
  key : String
deriving Repr, DecidableEq

/-- Cumulative-series loop (`app.py` lines 136-143, 333-340, 568-575):
for `day in range(1, max_day + 1)` append one row holding the weight sum
over member events whose `day_of_year` is at most `day`. -/
def buildSeries (key : String) (evs : List Event) : List CumRow :=
  (List.range (maxDay evs)).map (fun i => ⟨i + 1, cumulativeAt evs (i + 1), key⟩)

/-- Marker-point selection inside the frame loop (`app.py` lines 202-207,
411-416, 646-651): when the frame day has not passed the group's own max
day, take the exact-day row, falling back to the last row at or before
the day (`iloc[[-1]]`) should the exact match be empty; for later days
carry the row at the group's max day forward. -/
def currentPoint (ydata : List CumRow) (day : Nat) : List CumRow :=
  let maxDayFor := listMaxNat (ydata.map (·.day_of_year))
  let upToDay := ydata.filter (fun r => r.day_of_year ≤ day)
  if day ≤ maxDayFor then
    let exact := upToDay.filter (fun r => r.day_of_year = day)
    if exact.isEmpty then (upToDay.getLast?).toList else exact
  else
    ydata.filter (fun r => r.day_of_year = maxDayFor)

/-- An x/y trace handed to the renderer. -/
structure Trace where
  xs : List Nat
  ys : List Int
deriving Repr, DecidableEq

/-- Per-group content of one animation frame: the group key, the line
trace up to the frame day, the marker trace, and whether the marker
carries a visible text label. -/
structure FrameEntry where
  key : String
  line : Trace
  marker : Trace
  show_label : Bool
deriving Repr, DecidableEq

/-- Line trace of a group within a frame: all rows up to the frame day. -/
def lineTrace (ydata : List CumRow) (day : Nat) : Trace :=
  ⟨(ydata.filter (fun r => r.day_of_year ≤ day)).map (·.day_of_year),
   (ydata.filter (fun r => r.day_of_year ≤ day)).map (·.value)⟩

/-- Frame entry of the by-user plots: the marker text is shown when the
marker point list is nonempty and the user belongs to the top-N set. -/
def mkEntry (df_cum : List CumRow) (top : List String) (u : String) (day : Nat) :
    FrameEntry :=
  let udata := df_cum.filter (fun r => r.key = u)
  let pts := currentPoint udata day
  ⟨u, lineTrace udata day, ⟨pts.map (·.day_of_year), pts.map (·.value)⟩,
    !pts.isEmpty && top.contains u⟩

/-- Frame entry of the year-comparison plot, whose marker text is the
year label, shown whenever the marker point list is nonempty. -/
def mkEntryYear (df_cum : List CumRow) (k : String) (day : Nat) : FrameEntry :=
  let ydata := df_cum.filter (fun r => r.key = k)
  let pts := currentPoint ydata day
  ⟨k, lineTrace ydata day, ⟨pts.map (·.day_of_year), pts.map (·.value)⟩, !pts.isEmpty⟩

/-- Lexicographic code-point comparison of character lists, written as a
structural recursion so that concrete instances evaluate; this is how
Python (and hence pandas) orders the strings the pipeline sorts. -/
def charListLt : List Char → List Char → Bool
  | [], [] => false
  | [], _ :: _ => true
  | _ :: _, [] => false
  | a :: as, b :: bs =>
    if a.toNat < b.toNat then true
    else if b.toNat < a.toNat then false
    else charListLt as bs

/-- Strict string comparison on the underlying character lists. -/
def strLt (a b : String) : Bool := charListLt a.data b.data

/-- Order-reflecting string comparison: a before-or-equal b. -/
def strLe (a b : String) : Bool := !strLt b a

/-- The string order as a Prop relation, for the sorting lemmas. -/
def strLeP (a b : String) : Prop := strLe a b = true

instance : DecidableRel strLeP :=
  fun a b => inferInstanceAs (Decidable (strLe a b = true))

/-- `sorted(series.unique())` on numeric values: the distinct values in
ascending order. -/
def sortedUnique {α : Type} [LinearOrder α] (l : List α) : List α :=
  List.insertionSort (fun a b => a ≤ b) l.dedup

/-- `sorted(series.unique())` on strings: the distinct values in the
ascending code-point order Python uses. -/
def sortedUniqueStr (l : List String) : List String :=
  List.insertionSort strLeP l.dedup

/-- `series.unique()`: the distinct values keeping first occurrences. -/
def uniqueFirst : List String → List String
  | [] => []
  | x :: xs => x :: uniqueFirst (xs.filter (fun y => y ≠ x))
termination_by l => l.length
decreasing_by
  exact Nat.lt_succ_of_le (List.length_filter_le _ _)

/-- `range(1, max_day + 1, 2)`: the sampled frame days. -/
def sampleDays (gmax : Nat) : List Nat := List.range' 1 ((gmax + 1) / 2) 2

/-- A record paired with its parsed merge timestamp: a row of `df_merged`. -/
structure MergedRow where
  record : RawRecord
  ts : Timestamp
deriving Repr, DecidableEq

/-- The `df_all_prs['source'].isin(dataset_selection)` filter. -/
def sourceFilter (data : List RawRecord) (sel : List String) : List RawRecord :=
  data.filter (fun r => sel.contains (assign_source r.baseRepoName))

/-- `pd.to_datetime` followed by the `notna` filter: keep the records
carrying a merge timestamp, paired with their derived calendar fields. -/
def toMerged (rs : List RawRecord) : List MergedRow :=
  rs.filterMap (fun r => r.merged_at.map (fun ts => ⟨r, ts⟩))

/-- `sort_values('merged_at')` on merged rows. -/
def sortByMerged (rows : List MergedRow) : List MergedRow :=
  List.insertionSort (fun a b => a.ts.ord ≤ b.ts.ord) rows

/-- The event a merged row contributes: its derived `day_of_year` and the
weight column added by `calculate_weight`. -/
def toEventW (weight_by : String) (r : MergedRow) : Event :=
  ⟨r.ts.dayOfYear, calculate_weight r.record weight_by⟩

/-- Group loop shared by the three plots: walk the keys in order, skip a
key that has no rows, and append the cumulative series of its events. -/
def buildCumByKey {α : Type} (keys : List String) (rowsOf : String → List α)
    (toEv : α → Event) : List CumRow :=
  keys.flatMap (fun u =>
    if (rowsOf u).isEmpty then [] else buildSeries u ((rowsOf u).map toEv))

/-- The figure as seen by the claims: its list of animation frames.  A
bare `go.Figure()` is the empty frame list. -/
structure Fig where
  frames : List (List FrameEntry)
deriving Repr, DecidableEq

/-- `df_merged` of `plot_cumulative_prs`. -/
def prs_df_merged (data : List RawRecord) (sel : List String) : List MergedRow :=
  toMerged (sourceFilter data sel)

/-- `sorted(df_merged['year'].unique())`. -/
def prs_years (data : List RawRecord) (sel : List String) : List Nat :=
  sortedUnique ((prs_df_merged data sel).map (·.ts.year))

/-- The rows of one year, sorted by merge timestamp. -/
def prs_rowsOf (data : List RawRecord) (sel : List String) (y : Nat) : List MergedRow :=
  sortByMerged ((prs_df_merged data sel).filter (fun r => r.ts.year = y))

/-- `df_cumulative` of `plot_cumulative_prs`: one series per available
year, keyed by `str(year)`. -/
def prs_df_cum (data : List RawRecord) (sel : List String) (weight_by : String) :
    List CumRow :=
  (prs_years data sel).flatMap (fun y =>
    if (prs_rowsOf data sel y).isEmpty then []
    else buildSeries (toString y) ((prs_rowsOf data sel y).map (toEventW weight_by)))

/-- `df_cumulative['year'].unique()`: the trace order of the year plot. -/
def prs_keys (data : List RawRecord) (sel : List String) (weight_by : String) :
    List String :=
  uniqueFirst ((prs_df_cum data sel weight_by).map (·.key))

/-- Frame loop of `plot_cumulative_prs` (lines 185-223). -/
def prs_frames (data : List RawRecord) (sel : List String) (weight_by : String) :
    List (List FrameEntry) :=
  (sampleDays (listMaxNat ((prs_df_cum data sel weight_by).map (·.day_of_year)))).map
    (fun day => (prs_keys data sel weight_by).map
      (fun k => mkEntryYear (prs_df_cum data sel weight_by) k day))

/-- `plot_cumulative_prs` (`app.py` line 105): an empty selection or an
empty `df_cumulative` returns a bare figure; otherwise the frame loop
runs.  Total by construction: every input yields a figure. -/
def plot_cumulative_prs (data : List RawRecord) (sel : List String)
    (weight_by : String) : Fig :=
  if sel.isEmpty then ⟨[]⟩
  else if (prs_df_cum data sel weight_by).isEmpty then ⟨[]⟩
  else ⟨prs_frames data sel weight_by⟩

/-- `df_year` of the two by-user plots. -/
def byUser_df_year (data : List RawRecord) (sel : List String) (y : Nat) :
    List MergedRow :=
  (toMerged (sourceFilter data sel)).filter (fun r => r.ts.year = y)

/-- `sorted(df_year['user_display'].unique())`. -/
def byUser_users (data : List RawRecord) (sel : List String) (y : Nat) : List String :=
  sortedUniqueStr ((byUser_df_year data sel y).map (fun r => userDisplay r.record.userLogin))

/-- One user's rows, sorted by merge timestamp. -/
def byUser_rowsOf (data : List RawRecord) (sel : List String) (y : Nat) (u : String) :
    List MergedRow :=
  sortByMerged ((byUser_df_year data sel y).filter
    (fun r => userDisplay r.record.userLogin = u))

/-- `df_cumulative` of `plot_cumulative_prs_by_user`. -/
def byUser_df_cum (data : List RawRecord) (sel : List String) (y : Nat)
    (weight_by : String) : List CumRow :=
  buildCumByKey (byUser_users data sel y) (byUser_rowsOf data sel y) (toEventW weight_by)

/-- Series maximum over `Int` values (0 on an empty list; the pipelines
only take maxima of nonempty groups). -/
def listMaxInt : List Int → Int
  | [] => 0
  | a :: l => l.foldl max a

/-- `df_cumulative.groupby(key)[value].max()`: the distinct keys in
ascending order, each with the maximal cumulative value of its rows. -/
def groupbyMaxVal (rows : List CumRow) : List (String × Int) :=
  (sortedUniqueStr (rows.map (·.key))).map (fun k =>
    (k, listMaxInt ((rows.filter (fun r => r.key = k)).map (·.value))))

/-- Comparison used by `sort_values`: order by the value component. -/
def valLE (a b : String × Int) : Prop := a.2 ≤ b.2

instance : DecidableRel valLE :=
  fun a b => inferInstanceAs (Decidable (a.2 ≤ b.2))

/-- `Series.sort_values(ascending=False)`: numpy's quicksort argsort
leaves the relative order of equal values unspecified, so the program
guarantees only some value-descending permutation of the input.  An
executable model must pick one such permutation; this one reverses an
ascending insertion sort.  The theorems about it use only the properties
every value-descending permutation shares -- being a permutation of the
input with non-increasing values -- never this particular tie order. -/
def pdSortValuesDesc (l : List (String × Int)) : List (String × Int) :=
  (List.insertionSort valLE l).reverse

/-- `set(final_values.head(n).index)` as a membership list: the first `n`
keys of the descending sort. -/
def topNKeys (fv : List (String × Int)) (n : Nat) : List String :=
  ((pdSortValuesDesc fv).take n).map Prod.fst

/-- `final_values` of `plot_cumulative_prs_by_user` (line 349). -/
def byUser_finalVals (data : List RawRecord) (sel : List String) (y : Nat)
    (weight_by : String) : List (String × Int) :=
  groupbyMaxVal (byUser_df_cum data sel y weight_by)

/-- `top_n_users` of `plot_cumulative_prs_by_user` (line 350, n = 7). -/
def byUser_topN (data : List RawRecord) (sel : List String) (y : Nat)
    (weight_by : String) : List String :=
  topNKeys (byUser_finalVals data sel y weight_by) 7

/-- `df_cumulative['user'].unique()`: the trace order of the user plot. -/
def byUser_usersF (data : List RawRecord) (sel : List String) (y : Nat)
    (weight_by : String) : List String :=
  uniqueFirst ((byUser_df_cum data sel y weight_by).map (·.key))

/-- Frame loop of `plot_cumulative_prs_by_user` (lines 393-434). -/
def byUser_frames (data : List RawRecord) (sel : List String) (y : Nat)
    (weight_by : String) : List (List FrameEntry) :=
  (sampleDays (listMaxNat ((byUser_df_cum data sel y weight_by).map (·.day_of_year)))).map
    (fun day => (byUser_usersF data sel y weight_by).map
      (fun u => mkEntry (byUser_df_cum data sel y weight_by)
        (byUser_topN data sel y weight_by) u day))

/-- `plot_cumulative_prs_by_user` (`app.py` line 289).  Total by
construction. -/
def plot_cumulative_prs_by_user (data : List RawRecord) (sel : List String) (y : Nat)
    (weight_by : String) : Fig :=
  if sel.isEmpty then ⟨[]⟩
  else if (byUser_df_year data sel y).isEmpty then ⟨[]⟩
  else if (byUser_df_cum data sel y weight_by).isEmpty then ⟨[]⟩
  else ⟨byUser_frames data sel y weight_by⟩

/-- Synthetic reviewer event appended at `app.py` lines 540-545 (the
`date` column it also copies is derived from `merged_at` and never read
downstream, so it is not modelled separately). -/
structure ReviewRecord where
  reviewer_login : String
  merged_at : Timestamp
  day_of_year : Nat
deriving Repr, DecidableEq

/-- Reviewer expansion loop (`app.py` lines 529-547): a missing cell, the
empty-list text, and an unparseable text contribute no events; a parsed
non-list likewise; a parsed nonempty list contributes one event per entry
that is a dict carrying a `'login'` key, each inheriting the parent row's
merge timestamp and `day_of_year`; other entries are skipped one by one. -/
def expandReviewers (row : MergedRow) : List ReviewRecord :=
  match row.record.requested_reviewers with
  | .missing => []
  | .emptyListLiteral => []
  | .parseError => []
  | .nonListValue => []
  | .listValue entries =>
    if 0 < entries.length then
      entries.filterMap (fun e =>
        match e with
        | .objWithLogin l => some ⟨l, row.ts, row.ts.dayOfYear⟩
        | .objNoLogin => none
        | .nonObj => none)
    else []

/-- `review_records` of `plot_cumulative_reviews_by_user`. -/
def reviews_records (data : List RawRecord) (sel : List String) (y : Nat) :
    List ReviewRecord :=
  (byUser_df_year data sel y).flatMap expandReviewers

/-- `sorted(df_reviews['user_display'].unique())`. -/
def reviews_users (data : List RawRecord) (sel : List String) (y : Nat) : List String :=
  sortedUniqueStr ((reviews_records data sel y).map (fun r => userDisplay r.reviewer_login))

/-- `sort_values('merged_at')` on review records. -/
def sortReviewsByMerged (rows : List ReviewRecord) : List ReviewRecord :=
  List.insertionSort (fun a b => a.merged_at.ord ≤ b.merged_at.ord) rows

/-- One reviewer's records, sorted by merge timestamp. -/
def reviews_rowsOf (data : List RawRecord) (sel : List String) (y : Nat) (u : String) :
    List ReviewRecord :=
  sortReviewsByMerged ((reviews_records data sel y).filter
    (fun r => userDisplay r.reviewer_login = u))

/-- Unit-count event of a review record: the cumulative value computed at
line 570 is the length of the filtered rows, i.e. the sum of unit
weights. -/
def toEventReview (r : ReviewRecord) : Event := ⟨r.day_of_year, 1⟩

/-- `df_cumulative` of `plot_cumulative_reviews_by_user`. -/
def reviews_df_cum (data : List RawRecord) (sel : List String) (y : Nat) : List CumRow :=
  buildCumByKey (reviews_users data sel y) (reviews_rowsOf data sel y) toEventReview

/-- `final_values` of the reviews plot (line 584). -/
def reviews_finalVals (data : List RawRecord) (sel : List String) (y : Nat) :
    List (String × Int) :=
  groupbyMaxVal (reviews_df_cum data sel y)

/-- `top_n_users` of the reviews plot (line 585, n = 7). -/
def reviews_topN (data : List RawRecord) (sel : List String) (y : Nat) : List String :=
  topNKeys (reviews_finalVals data sel y) 7

/-- `df_cumulative['user'].unique()` of the reviews plot. -/
def reviews_usersF (data : List RawRecord) (sel : List String) (y : Nat) : List String :=
  uniqueFirst ((reviews_df_cum data sel y).map (·.key))

/-- Frame loop of `plot_cumulative_reviews_by_user` (lines 628-669). -/
def reviews_frames (data : List RawRecord) (sel : List String) (y : Nat) :
    List (List FrameEntry) :=
  (sampleDays (listMaxNat ((reviews_df_cum data sel y).map (·.day_of_year)))).map
    (fun day => (reviews_usersF data sel y).map
      (fun u => mkEntry (reviews_df_cum data sel y) (reviews_topN data sel y) u day))

/-- `plot_cumulative_reviews_by_user` (`app.py` line 500).  Total by
construction. -/
def plot_cumulative_reviews_by_user (data : List RawRecord) (sel : List String)
    (y : Nat) : Fig :=
  if sel.isEmpty then ⟨[]⟩
  else if (byUser_df_year data sel y).isEmpty then ⟨[]⟩
  else if (reviews_records data sel y).isEmpty then ⟨[]⟩
  else if (reviews_df_cum data sel y).isEmpty then ⟨[]⟩
  else ⟨reviews_frames data sel y⟩

/-- Modelled from the claim text of C2: rank a group before another when
its final cumulative value is larger, breaking ties by group key
ascending. -/
def specLexKeyAsc (a b : String × Int) : Prop :=
  b.2 < a.2 ∨ (a.2 = b.2 ∧ strLeP a.1 b.1)

instance : DecidableRel specLexKeyAsc :=
  fun a b => inferInstanceAs (Decidable (b.2 < a.2 ∨ (a.2 = b.2 ∧ strLeP a.1 b.1)))

/-- Modelled from the claim text of C2: a group's `final_cumulative` is
the value of the last point of its series, i.e. the value at its own
`max_day` (this differs from the maximum the source takes whenever the
series is not monotone). -/
def specFinalVals (rows : List CumRow) : List (String × Int) :=
  (sortedUniqueStr (rows.map (·.key))).map (fun k =>
    (k, ((((rows.filter (fun r => r.key = k)).getLast?).map (·.value)).getD 0)))

/-- Top-N set described by the claim: first n groups under value
descending with ties by key ascending. -/
def topNSpecClaim (fv : List (String × Int)) (n : Nat) : List String :=
  ((List.insertionSort specLexKeyAsc fv).take n).map Prod.fst

instance : IsTotal (String × Int) valLE :=
  ⟨fun a b => Int.le_total a.2 b.2⟩

instance : IsTrans (String × Int) valLE :=
  ⟨fun _ _ _ hab hbc => le_trans hab hbc⟩

/-- Sample record with additions 5 and deletions 8: the net_lines
scenario of the spec. -/
def rec58 : RawRecord :=
  ⟨"magdalena90", "space-intelligence", some ⟨2025, 5, 1⟩, some 5, some 8, some 2,
    .missing⟩

/-- Sample record whose additions cell is missing (NaN). -/
def recNoAdd : RawRecord :=
  ⟨"stearp", "space-intelligence", some ⟨2025, 6, 2⟩, none, some 1, none, .missing⟩

/-- Sample merged row whose reviewer list holds two well-formed entries
around two malformed ones. -/
def rowC6 : MergedRow :=
  ⟨⟨"euan-si", "space-intelligence", some ⟨2025, 40, 9⟩, some 3, some 1, some 0,
      .listValue [.objWithLogin "stearp", .nonObj, .objNoLogin,
        .objWithLogin "benritchie"]⟩,
    ⟨2025, 40, 9⟩⟩

/-- Sample record not authored by the bot whose reviewer list requests
the bot identity. -/
def recC10 : RawRecord :=
  ⟨"magdalena90", "space-intelligence", some ⟨2025, 3, 1⟩, some 10, some 2, some 0,
    .listValue [.objWithLogin "dp-actions[bot]"]⟩

/-- Dataset falsifying the C2 selection rule: user ua peaks at 10 but
finishes at -5 under net_lines, while ub..uh finish at 1..7. -/
def dataC2 : List RawRecord :=
  [⟨"ua", "qgis-x", some ⟨2025, 1, 1⟩, some 10, some 0, none, .missing⟩,
   ⟨"ua", "qgis-x", some ⟨2025, 2, 2⟩, some 0, some 15, none, .missing⟩,
   ⟨"ub", "qgis-x", some ⟨2025, 3, 3⟩, some 1, some 0, none, .missing⟩,
   ⟨"uc", "qgis-x", some ⟨2025, 3, 4⟩, some 2, some 0, none, .missing⟩,
   ⟨"ud", "qgis-x", some ⟨2025, 3, 5⟩, some 3, some 0, none, .missing⟩,
   ⟨"ue", "qgis-x", some ⟨2025, 3, 6⟩, some 4, some 0, none, .missing⟩,
   ⟨"uf", "qgis-x", some ⟨2025, 3, 7⟩, some 5, some 0, none, .missing⟩,
   ⟨"ug", "qgis-x", some ⟨2025, 3, 8⟩, some 6, some 0, none, .missing⟩,
   ⟨"uh", "qgis-x", some ⟨2025, 3, 9⟩, some 7, some 0, none, .missing⟩]

theorem le_listMaxNat {a : Nat} {l : List Nat} (h : a ∈ l) : a ≤ listMaxNat l := by
  induction l with
  | nil => cases h
  | cons b t ih =>
    rcases List.mem_cons.mp h with rfl | h'
    · exact le_max_left _ _
    · exact le_trans (ih h') (le_max_right _ _)

theorem listMaxNat_append (l₁ l₂ : List Nat) :
    listMaxNat (l₁ ++ l₂) = max (listMaxNat l₁) (listMaxNat l₂) := by
  induction l₁ with
  | nil => simp [listMaxNat]
  | cons a t ih => simp [listMaxNat, ih, Nat.max_assoc]

theorem listMaxNat_range_succ (n : Nat) :
    listMaxNat ((List.range n).map (fun i => i + 1)) = n := by
  induction n with
  | zero => simp [listMaxNat]
  | succ n ih =>
    rw [List.range_succ, List.map_append, listMaxNat_append, ih]
    simp [listMaxNat]

theorem mem_buildSeries {k : String} {evs : List Event} {r : CumRow} :
    r ∈ buildSeries k evs ↔
      ∃ d, 1 ≤ d ∧ d ≤ maxDay evs ∧ r = ⟨d, cumulativeAt evs d, k⟩ := by
  simp only [buildSeries, List.mem_map, List.mem_range]
  constructor
  · rintro ⟨i, hi, rfl⟩
    exact ⟨i + 1, by omega, by omega, rfl⟩
  · rintro ⟨d, h1, h2, rfl⟩
    refine ⟨d - 1, by omega, ?_⟩
    have hd : d - 1 + 1 = d := by omega
    rw [hd]

theorem buildSeries_length (k : String) (evs : List Event) :
    (buildSeries k evs).length = maxDay evs := by
  simp [buildSeries]

theorem buildSeries_daysMax (k : String) (evs : List Event) :
    listMaxNat ((buildSeries k evs).map (·.day_of_year)) = maxDay evs := by
  have h : (buildSeries k evs).map (·.day_of_year) =
      (List.range (maxDay evs)).map (fun i => i + 1) := by
    rw [buildSeries, List.map_map]
    rfl
  rw [h, listMaxNat_range_succ]

theorem range_map_filter_day (k : String) (evs : List Event) :
    ∀ n d, 1 ≤ d → d ≤ n →
      ((List.range n).map (fun i => CumRow.mk (i + 1) (cumulativeAt evs (i + 1)) k)).filter
          (fun r => r.day_of_year = d) =
        [⟨d, cumulativeAt evs d, k⟩] := by
  intro n
  induction n with
  | zero => intro d h1 h2; omega
  | succ n ih =>
    intro d h1 h2
    rw [List.range_succ, List.map_append, List.filter_append]
    by_cases hd : d ≤ n
    · rw [ih d h1 hd]
      have h0 : (([n].map (fun i => CumRow.mk (i + 1) (cumulativeAt evs (i + 1)) k)).filter
          (fun r => r.day_of_year = d)) = [] := by
        simp only [List.map_cons, List.map_nil, List.filter_eq_nil_iff, List.mem_singleton]
        rintro a rfl
        simp only [decide_eq_true_eq]
        omega
      rw [h0, List.append_nil]
    · have hdn : d = n + 1 := by omega
      subst hdn
      have h0 : (((List.range n).map
          (fun i => CumRow.mk (i + 1) (cumulativeAt evs (i + 1)) k)).filter
          (fun r => r.day_of_year = n + 1)) = [] := by
        rw [List.filter_eq_nil_iff]
        intro a ha
        rw [List.mem_map] at ha
        obtain ⟨i, hi, rfl⟩ := ha
        rw [List.mem_range] at hi
        simp only [decide_eq_true_eq]
        omega
      rw [h0, List.nil_append]
      simp

theorem buildSeries_filter_day (k : String) (evs : List Event) {d : Nat}
    (h1 : 1 ≤ d) (h2 : d ≤ maxDay evs) :
    (buildSeries k evs).filter (fun r => r.day_of_year = d) =
      [⟨d, cumulativeAt evs d, k⟩] := by
  rw [buildSeries]
  exact range_map_filter_day k evs (maxDay evs) d h1 h2

theorem buildSeries_upto_filter_day (k : String) (evs : List Event) {d : Nat}
    (h1 : 1 ≤ d) (h2 : d ≤ maxDay evs) :
    ((buildSeries k evs).filter (fun r => r.day_of_year ≤ d)).filter
        (fun r => r.day_of_year = d) =
      [⟨d, cumulativeAt evs d, k⟩] := by
  rw [List.filter_filter]
  have hcg : ∀ r ∈ buildSeries k evs,
      (decide (r.day_of_year = d) && decide (r.day_of_year ≤ d)) =
        decide (r.day_of_year = d) := by
    intro r _
    by_cases h : r.day_of_year = d
    · simp [h]
    · simp [h]
  rw [List.filter_congr hcg]
  exact buildSeries_filter_day k evs h1 h2

theorem currentPoint_exact (k : String) (evs : List Event) {day : Nat}
    (h1 : 1 ≤ day) (h2 : day ≤ maxDay evs) :
    currentPoint (buildSeries k evs) day = [⟨day, cumulativeAt evs day, k⟩] := by
  simp only [currentPoint, buildSeries_daysMax]
  rw [if_pos h2, buildSeries_upto_filter_day k evs h1 h2]
  rfl

theorem currentPoint_carry (k : String) (evs : List Event) {day : Nat}
    (h1 : 1 ≤ maxDay evs) (h2 : maxDay evs < day) :
    currentPoint (buildSeries k evs) day =
      [⟨maxDay evs, cumulativeAt evs (maxDay evs), k⟩] := by
  simp only [currentPoint, buildSeries_daysMax]
  rw [if_neg (by omega), buildSeries_filter_day k evs h1 le_rfl]

/-- C1: for every group with at least one event, the cumulative series has
exactly max_day rows; the row at position d-1 is day d carrying the sum of
the weights of the group's events with day_of_year at most d; and every
row's day lies in 1..max_day, so the sequence ends at max_day, not 366. -/
theorem c1_cumulative_series (k : String) (evs : List Event) (hne : evs ≠ []) :
    (buildSeries k evs).length = maxDay evs
  ∧ (∀ d, 1 ≤ d → d ≤ maxDay evs →
      (buildSeries k evs)[d - 1]? =
        some ⟨d, ((evs.filter (fun e => e.day_of_year ≤ d)).map (·.weight)).sum, k⟩)
  ∧ (∀ r ∈ buildSeries k evs, 1 ≤ r.day_of_year ∧ r.day_of_year ≤ maxDay evs) := by
  refine ⟨buildSeries_length k evs, ?_, ?_⟩
  · intro d h1 h2
    obtain ⟨i, rfl⟩ : ∃ i, d = i + 1 := ⟨d - 1, by omega⟩
    have hi : i < maxDay evs := by omega
    simp [buildSeries, List.getElem?_range hi, cumulativeAt]
  · intro r hr
    obtain ⟨d, h1, h2, rfl⟩ := mem_buildSeries.mp hr
    exact ⟨h1, h2⟩

/-- Witness for C1 at a concrete two-event group. -/
theorem c1_cumulative_series_witness :
    (([⟨10, 2⟩, ⟨20, 1⟩] : List Event) ≠ [])
  ∧ (buildSeries "2025" [⟨10, 2⟩, ⟨20, 1⟩]).length = maxDay [⟨10, 2⟩, ⟨20, 1⟩] :=
  ⟨by decide, (c1_cumulative_series "2025" [⟨10, 2⟩, ⟨20, 1⟩] (by decide)).1⟩

/-- C3: for every frame day beyond a group's max_day, the marker point equals
the group's series row at max_day (same day_of_year and same cumulative
value), so the group is carried forward rather than omitted. -/
theorem c3_carry_forward (k : String) (evs : List Event) (day : Nat)
    (h1 : 1 ≤ maxDay evs) (h2 : maxDay evs < day) :
    currentPoint (buildSeries k evs) day =
      [⟨maxDay evs,
        ((evs.filter (fun e => e.day_of_year ≤ maxDay evs)).map (·.weight)).sum, k⟩] :=
  currentPoint_carry k evs h1 h2

/-- Witness for C3 at a one-event group sampled past its max day. -/
theorem c3_carry_forward_witness :
    1 ≤ maxDay [(⟨10, 2⟩ : Event)] ∧ maxDay [(⟨10, 2⟩ : Event)] < 14
  ∧ currentPoint (buildSeries "2025" [⟨10, 2⟩]) 14 = [⟨10, 2, "2025"⟩] :=
  ⟨by decide, by decide, c3_carry_forward "2025" [⟨10, 2⟩] 14 (by decide) (by decide)⟩

/-- C7: for every frame day d with 1 <= d <= max_day, the exact-day lookup in
the group's series is nonempty and the marker is exactly the day-d row, so
the iloc-based fallback branch is unreachable. -/
theorem c7_no_fallback (k : String) (evs : List Event) (day : Nat)
    (h1 : 1 ≤ day) (h2 : day ≤ maxDay evs) :
    (((buildSeries k evs).filter (fun r => r.day_of_year ≤ day)).filter
        (fun r => r.day_of_year = day) ≠ [])
  ∧ currentPoint (buildSeries k evs) day = [⟨day, cumulativeAt evs day, k⟩] := by
  constructor
  · rw [buildSeries_upto_filter_day k evs h1 h2]
    simp
  · exact currentPoint_exact k evs h1 h2

/-- Witness for C7 at a concrete two-event group and day 14. -/
theorem c7_no_fallback_witness :
    (1 : Nat) ≤ 14 ∧ 14 ≤ maxDay [(⟨10, 2⟩ : Event), ⟨20, 1⟩]
  ∧ (((buildSeries "2025" [⟨10, 2⟩, ⟨20, 1⟩]).filter (fun r => r.day_of_year ≤ 14)).filter
        (fun r => r.day_of_year = 14) ≠ []) :=
  ⟨by decide, by decide,
    (c7_no_fallback "2025" [⟨10, 2⟩, ⟨20, 1⟩] 14 (by decide) (by decide)).1⟩

theorem calculate_weight_nonneg (r : RawRecord) {w : String} (hw : w ≠ "net_lines") :
    0 ≤ calculate_weight r w := by
  unfold calculate_weight
  by_cases h1 : w = "pr_count"
  · rw [if_pos h1]
    exact Int.one_nonneg
  · rw [if_neg h1]
    by_cases h2 : w = "lines_added"
    · rw [if_pos h2]
      exact Int.natCast_nonneg _
    · rw [if_neg h2, if_neg hw]
      by_cases h4 : w = "comments"
      · rw [if_pos h4]
        have := Int.natCast_nonneg (r.review_comment_count.getD 0)
        omega
      · rw [if_neg h4]
        exact Int.one_nonneg

theorem cumulativeAt_cons (e : Event) (t : List Event) (d : Nat) :
    cumulativeAt (e :: t) d =
      (if e.day_of_year ≤ d then e.weight else 0) + cumulativeAt t d := by
  by_cases h : e.day_of_year ≤ d <;> simp [cumulativeAt, List.filter_cons, h]

theorem cumulativeAt_mono {evs : List Event} (hw : ∀ e ∈ evs, 0 ≤ e.weight)
    {d1 d2 : Nat} (h : d1 ≤ d2) : cumulativeAt evs d1 ≤ cumulativeAt evs d2 := by
  induction evs with
  | nil => simp [cumulativeAt]
  | cons e t ih =>
    rw [cumulativeAt_cons, cumulativeAt_cons]
    have hrec := ih (fun x hx => hw x (List.mem_cons_of_mem _ hx))
    have he : 0 ≤ e.weight := hw e (List.mem_cons_self _ _)
    by_cases h1 : e.day_of_year ≤ d1
    · rw [if_pos h1, if_pos (le_trans h1 h)]
      omega
    · by_cases h2 : e.day_of_year ≤ d2
      · rw [if_neg h1, if_pos h2]
        omega
      · rw [if_neg h1, if_neg h2]
        omega

/-- C5: within one computation the cumulative value of a group is
non-decreasing in the day whenever the active metric is pr_count,
lines_added, or comments (all weights non-negative); net_lines is exempt
from this statement. -/
theorem c5_monotone_nonneg_metrics (rows : List MergedRow) (w : String)
    (hw : w = "pr_count" ∨ w = "lines_added" ∨ w = "comments")
    (d1 d2 : Nat) (h : d1 ≤ d2) :
    cumulativeAt (rows.map (toEventW w)) d1 ≤ cumulativeAt (rows.map (toEventW w)) d2 := by
  apply cumulativeAt_mono _ h
  intro e he
  rw [List.mem_map] at he
  obtain ⟨r, _, rfl⟩ := he
  exact calculate_weight_nonneg r.record (by rcases hw with rfl | rfl | rfl <;> decide)

/-- Witness for C5 at a concrete one-row group under pr_count. -/
theorem c5_monotone_nonneg_metrics_witness :
    cumulativeAt (([⟨rec58, ⟨2025, 5, 1⟩⟩] : List MergedRow).map (toEventW "pr_count")) 3
      ≤ cumulativeAt (([⟨rec58, ⟨2025, 5, 1⟩⟩] : List MergedRow).map (toEventW "pr_count")) 9 :=
  c5_monotone_nonneg_metrics [⟨rec58, ⟨2025, 5, 1⟩⟩] "pr_count" (Or.inl rfl) 3 9
    (by omega)

/-- C4: the weight function is total by construction and returns 1 for
pr_count, the additions value with a missing cell as 0 for lines_added,
additions minus deletions with missing cells as 0 for net_lines, the
comment count with a missing cell as 0 plus 1 for comments, and 1 for any
other metric name. -/
theorem c4_weight_metrics (r : RawRecord) :
    calculate_weight r "pr_count" = 1
  ∧ calculate_weight r "lines_added" =
      (match r.additions with | some a => (a : Int) | none => 0)
  ∧ calculate_weight r "net_lines" =
      (match r.additions with | some a => (a : Int) | none => 0) -
        (match r.deletions with | some d => (d : Int) | none => 0)
  ∧ calculate_weight r "comments" =
      (match r.review_comment_count with | some c => (c : Int) | none => 0) + 1
  ∧ (∀ w, w ≠ "pr_count" → w ≠ "lines_added" → w ≠ "net_lines" → w ≠ "comments" →
      calculate_weight r w = 1) := by
  refine ⟨rfl, ?_, ?_, ?_, ?_⟩
  · unfold calculate_weight
    rw [if_neg (by decide), if_pos rfl]
    cases r.additions <;> simp
  · unfold calculate_weight
    rw [if_neg (by decide), if_neg (by decide), if_pos rfl]
    cases r.additions <;> cases r.deletions <;> simp
  · unfold calculate_weight
    rw [if_neg (by decide), if_neg (by decide), if_neg (by decide), if_pos rfl]
    cases r.review_comment_count <;> simp
  · intro w h1 h2 h3 h4
    unfold calculate_weight
    rw [if_neg h1, if_neg h2, if_neg h3, if_neg h4]

/-- Witness for C4: the additions 5, deletions 8 scenario yields -3, and the
unknown metric name count falls back to 1. -/
theorem c4_weight_metrics_witness :
    calculate_weight rec58 "net_lines" = -3 ∧ calculate_weight rec58 "count" = 1 := by
  constructor
  · rw [(c4_weight_metrics rec58).2.2.1]
    decide
  · exact (c4_weight_metrics rec58).2.2.2.2 "count" (by decide) (by decide) (by decide)
      (by decide)

/-- C9: every record surviving the load filter carries a present additions
value of at most 30000 (so the missing-as-0 branch of lines_added is never
exercised on surviving rows), and a record whose additions cell is missing
never survives the filter. -/
theorem c9_missing_additions_dropped (data : List RawRecord) :
    (∀ r ∈ df_all_prs data, ∃ a, r.additions = some a ∧ a ≤ 30000 ∧
        calculate_weight r "lines_added" = (a : Int))
  ∧ (∀ r, r.additions = none → r ∉ df_all_prs data) := by
  constructor
  · intro r hr
    rw [df_all_prs, List.mem_filter] at hr
    obtain ⟨_, hadd⟩ := hr
    cases h : r.additions with
    | none =>
      rw [h] at hadd
      exact absurd hadd (by simp [additionsLe30000])
    | some a =>
      rw [h] at hadd
      refine ⟨a, rfl, ?_, ?_⟩
      · simpa [additionsLe30000] using hadd
      · unfold calculate_weight
        rw [if_neg (by decide), if_pos rfl, h]
        rfl
  · intro r h hmem
    rw [df_all_prs, List.mem_filter] at hmem
    have := hmem.2
    rw [h] at this
    simp [additionsLe30000] at this

/-- Witness for C9: the sample record with a missing additions cell is
dropped by the load filter. -/
theorem c9_missing_additions_dropped_witness :
    recNoAdd ∉ df_all_prs [recNoAdd] :=
  (c9_missing_additions_dropped [recNoAdd]).2 recNoAdd rfl

/-- C6: a missing, empty-literal, unparseable, or non-list review-request
field yields zero synthetic events without error; a parsed list yields
exactly the events of its dict-with-login entries in order, each
inheriting the parent row's merge timestamp and day_of_year, with
malformed entries skipped individually. -/
theorem c6_reviewer_expansion (row : MergedRow) :
    ((row.record.requested_reviewers = .missing ∨
      row.record.requested_reviewers = .emptyListLiteral ∨
      row.record.requested_reviewers = .parseError ∨
      row.record.requested_reviewers = .nonListValue) → expandReviewers row = [])
  ∧ (∀ entries, row.record.requested_reviewers = .listValue entries →
      expandReviewers row = entries.filterMap (fun e =>
        match e with
        | .objWithLogin l => some ⟨l, row.ts, row.ts.dayOfYear⟩
        | .objNoLogin => none
        | .nonObj => none)
      ∧ ∀ rr ∈ expandReviewers row,
          rr.merged_at = row.ts ∧ rr.day_of_year = row.ts.dayOfYear) := by
  constructor
  · rintro (h | h | h | h) <;> simp [expandReviewers, h]
  · intro entries h
    have heq : expandReviewers row = entries.filterMap (fun e =>
        match e with
        | .objWithLogin l => some ⟨l, row.ts, row.ts.dayOfYear⟩
        | .objNoLogin => none
        | .nonObj => none) := by
      simp only [expandReviewers, h]
      cases entries with
      | nil => simp
      | cons a t => simp
    refine ⟨heq, ?_⟩
    intro rr hrr
    rw [heq, List.mem_filterMap] at hrr
    obtain ⟨e, _, he⟩ := hrr
    cases e with
    | objWithLogin l =>
      simp only [Option.some.injEq] at he
      rw [← he]
      exact ⟨rfl, rfl⟩
    | objNoLogin => cases he
    | nonObj => cases he

/-- Witness for C6: a list with two well-formed entries around two
malformed ones yields exactly the two inherited events. -/
theorem c6_reviewer_expansion_witness :
    expandReviewers rowC6 =
      [⟨"stearp", ⟨2025, 40, 9⟩, 40⟩, ⟨"benritchie", ⟨2025, 40, 9⟩, 40⟩] := by
  have h := ((c6_reviewer_expansion rowC6).2
    [.objWithLogin "stearp", .nonObj, .objNoLogin, .objWithLogin "benritchie"] rfl).1
  rw [h]
  rfl

/-- C8: an empty dataset selection, or a selection under which no record
has a merge timestamp after source filtering, makes all three plot
functions return a figure with an empty frame sequence (the functions are
total, so no error is raised). -/
theorem c8_empty_result (data : List RawRecord) (sel : List String) (y : Nat)
    (w : String) (h : sel = [] ∨ toMerged (sourceFilter data sel) = []) :
    (plot_cumulative_prs data sel w).frames = []
  ∧ (plot_cumulative_prs_by_user data sel y w).frames = []
  ∧ (plot_cumulative_reviews_by_user data sel y).frames = [] := by
  rcases h with rfl | h
  · exact ⟨rfl, rfl, rfl⟩
  · have hyears : prs_years data sel = [] := by
      rw [prs_years, prs_df_merged, h]
      rfl
    have hprs : prs_df_cum data sel w = [] := by
      rw [prs_df_cum, hyears]
      rfl
    have hyear : byUser_df_year data sel y = [] := by
      rw [byUser_df_year, h]
      rfl
    refine ⟨?_, ?_, ?_⟩
    · rw [plot_cumulative_prs, hprs]
      split <;> rfl
    · rw [plot_cumulative_prs_by_user, hyear]
      split <;> rfl
    · rw [plot_cumulative_reviews_by_user, hyear]
      split <;> rfl

/-- Witness for C8 at the empty selection. -/
theorem c8_empty_result_witness :
    (plot_cumulative_prs [] [] "pr_count").frames = []
  ∧ (plot_cumulative_prs_by_user [] [] 2025 "pr_count").frames = []
  ∧ (plot_cumulative_reviews_by_user [] [] 2025).frames = [] :=
  c8_empty_result [] [] 2025 "pr_count" (Or.inl rfl)

/-- C10: the bot exclusion applies only to the author field: a record
authored by another user whose reviewer list requests dp-actions with the
bot marker survives the load filter, and the expansion yields a synthetic
reviewer event for that identity, grouped under its mapped display name
copilot. -/
theorem c10_bot_reviewer_event :
    df_all_prs [recC10] = [recC10]
  ∧ (reviews_records (df_all_prs [recC10]) ["space_intelligence"] 2025).map
      (·.reviewer_login) = ["dp-actions[bot]"]
  ∧ reviews_users (df_all_prs [recC10]) ["space_intelligence"] 2025 = ["copilot"] := by
  refine ⟨?_, ?_, ?_⟩ <;> rfl

theorem topNKeys_length (fv : List (String × Int)) (n : Nat) :
    (topNKeys fv n).length = min n fv.length := by
  simp [topNKeys, pdSortValuesDesc]

theorem sortedUniqueStr_nodup (l : List String) : (sortedUniqueStr l).Nodup :=
  ((List.perm_insertionSort _ l.dedup).nodup_iff).mpr (List.nodup_dedup l)

theorem pdSortValuesDesc_perm (l : List (String × Int)) :
    List.Perm (pdSortValuesDesc l) l :=
  (List.insertionSort valLE l).reverse_perm.trans (List.perm_insertionSort valLE l)

theorem pdSortValuesDesc_pairwise_ge (l : List (String × Int)) :
    (pdSortValuesDesc l).Pairwise (fun a b => b.2 ≤ a.2) := by
  rw [pdSortValuesDesc, List.pairwise_reverse]
  exact (List.sorted_insertionSort valLE l).imp (fun h => h)

theorem groupbyMaxVal_keys_nodup (rows : List CumRow) :
    ((groupbyMaxVal rows).map Prod.fst).Nodup := by
  rw [groupbyMaxVal, List.map_map]
  have h : (Prod.fst ∘ fun k => (k,
      listMaxInt ((rows.filter (fun r => r.key = k)).map (·.value)))) = id := by
    funext k
    rfl
  rw [h, List.map_id]
  exact sortedUniqueStr_nodup _

theorem topNKeys_dominates (fv : List (String × Int)) (n : Nat)
    (hnd : (fv.map Prod.fst).Nodup) :
    ∀ p ∈ fv, p.1 ∈ topNKeys fv n → ∀ q ∈ fv, q.1 ∉ topNKeys fv n → q.2 ≤ p.2 := by
  intro p hp hpt q hq hqt
  have hperm : List.Perm (pdSortValuesDesc fv) fv := pdSortValuesDesc_perm fv
  have hsnd : ((pdSortValuesDesc fv).map Prod.fst).Nodup :=
    ((hperm.map Prod.fst).nodup_iff).mpr hnd
  have hps : p ∈ pdSortValuesDesc fv := hperm.mem_iff.mpr hp
  have hqs : q ∈ pdSortValuesDesc fv := hperm.mem_iff.mpr hq
  rw [topNKeys] at hpt hqt
  obtain ⟨p', hp', hpk⟩ := List.mem_map.mp hpt
  have hp'e : p' = p :=
    List.inj_on_of_nodup_map hsnd (List.mem_of_mem_take hp') hps hpk
  have hqd : q ∈ (pdSortValuesDesc fv).drop n := by
    have hsplit : q ∈ (pdSortValuesDesc fv).take n ++ (pdSortValuesDesc fv).drop n := by
      rw [List.take_append_drop]
      exact hqs
    rcases List.mem_append.mp hsplit with hqt2 | hqd
    · exact absurd (List.mem_map_of_mem Prod.fst hqt2) hqt
    · exact hqd
  have hpw : ((pdSortValuesDesc fv).take n ++ (pdSortValuesDesc fv).drop n).Pairwise
      (fun a b => b.2 ≤ a.2) := by
    rw [List.take_append_drop]
    exact pdSortValuesDesc_pairwise_ge fv
  rw [← hp'e]
  exact (List.pairwise_append.mp hpw).2.2 p' hp' q hqd

theorem mem_buildCumByKey {α : Type} {keys : List String} {rowsOf : String → List α}
    {toEv : α → Event} {r : CumRow} (h : r ∈ buildCumByKey keys rowsOf toEv) :
    r.key ∈ keys ∧ ¬(rowsOf r.key).isEmpty ∧
      r ∈ buildSeries r.key ((rowsOf r.key).map toEv) := by
  rw [buildCumByKey, List.mem_flatMap] at h
  obtain ⟨u, hu, hr⟩ := h
  by_cases he : (rowsOf u).isEmpty
  · rw [if_pos he] at hr
    cases hr
  · rw [if_neg he] at hr
    have hk : r.key = u := by
      obtain ⟨d, _, _, rfl⟩ := mem_buildSeries.mp hr
      rfl
    rw [hk]
    exact ⟨hu, he, hr⟩

theorem buildCumByKey_filter {α : Type} (keys : List String) (rowsOf : String → List α)
    (toEv : α → Event) (hnd : keys.Nodup) (u : String) :
    (buildCumByKey keys rowsOf toEv).filter (fun r => r.key = u) =
      if u ∈ keys then
        (if (rowsOf u).isEmpty then [] else buildSeries u ((rowsOf u).map toEv))
      else [] := by
  induction keys with
  | nil => simp [buildCumByKey]
  | cons v vs ih =>
    rcases List.nodup_cons.mp hnd with ⟨hv, hvs⟩
    have hsplit : (buildCumByKey (v :: vs) rowsOf toEv).filter (fun r => r.key = u) =
        ((if (rowsOf v).isEmpty then [] else buildSeries v ((rowsOf v).map toEv)).filter
          (fun r => r.key = u)) ++
        ((buildCumByKey vs rowsOf toEv).filter (fun r => r.key = u)) := by
      rw [buildCumByKey, List.flatMap_cons, List.filter_append]
      rfl
    rw [hsplit]
    by_cases huv : u = v
    · subst huv
      have h1 : ((if (rowsOf u).isEmpty then ([] : List CumRow)
          else buildSeries u ((rowsOf u).map toEv)).filter (fun r => r.key = u)) =
          (if (rowsOf u).isEmpty then [] else buildSeries u ((rowsOf u).map toEv)) := by
        rw [List.filter_eq_self]
        intro a ha
        by_cases he : (rowsOf u).isEmpty
        · rw [if_pos he] at ha
          cases ha
        · rw [if_neg he] at ha
          obtain ⟨d, _, _, rfl⟩ := mem_buildSeries.mp ha
          simp
      have h2 : ((buildCumByKey vs rowsOf toEv).filter (fun r => r.key = u)) = [] := by
        rw [List.filter_eq_nil_iff]
        intro a ha
        have hmem := (mem_buildCumByKey ha).1
        simp only [decide_eq_true_eq]
        intro hk
        rw [hk] at hmem
        exact hv hmem
      rw [h1, h2, List.append_nil, if_pos (List.mem_cons_self _ _)]
    · have h1 : ((if (rowsOf v).isEmpty then ([] : List CumRow)
          else buildSeries v ((rowsOf v).map toEv)).filter (fun r => r.key = u)) = [] := by
        rw [List.filter_eq_nil_iff]
        intro a ha
        by_cases he : (rowsOf v).isEmpty
        · rw [if_pos he] at ha
          cases ha
        · rw [if_neg he] at ha
          obtain ⟨d, _, _, rfl⟩ := mem_buildSeries.mp ha
          simp only [decide_eq_true_eq]
          intro hk
          exact huv hk.symm
      rw [h1, List.nil_append, ih hvs]
      by_cases hm : u ∈ vs
      · rw [if_pos hm, if_pos (List.mem_cons_of_mem _ hm)]
      · rw [if_neg hm, if_neg (fun hc => by
          rcases List.mem_cons.mp hc with rfl | hc'
          · exact huv rfl
          · exact hm hc')]

theorem uniqueFirst_subset_aux : ∀ (n : Nat) (l : List String), l.length ≤ n →
    ∀ x ∈ uniqueFirst l, x ∈ l := by
  intro n
  induction n with
  | zero =>
    intro l hl x hx
    cases l with
    | nil =>
      rw [uniqueFirst] at hx
      cases hx
    | cons a t => exact absurd hl (by simp)
  | succ n ih =>
    intro l hl x hx
    cases l with
    | nil =>
      rw [uniqueFirst] at hx
      cases hx
    | cons y ys =>
      rw [uniqueFirst] at hx
      rcases List.mem_cons.mp hx with rfl | hx'
      · exact List.mem_cons_self _ _
      · have hlen : (ys.filter (fun z => z ≠ y)).length ≤ n := by
          have hf := List.length_filter_le (fun z => decide (z ≠ y)) ys
          simp only [List.length_cons] at hl
          omega
        exact List.mem_cons_of_mem _
          ((List.mem_filter.mp (ih _ hlen x hx')).1)

theorem uniqueFirst_subset (l : List String) : ∀ x ∈ uniqueFirst l, x ∈ l :=
  uniqueFirst_subset_aux l.length l le_rfl

theorem sampleDays_one_le {g day : Nat} (h : day ∈ sampleDays g) : 1 ≤ day := by
  rw [sampleDays, List.mem_range'] at h
  obtain ⟨i, _, rfl⟩ := h
  omega

theorem currentPoint_buildCum_ne {α : Type} (keys : List String)
    (rowsOf : String → List α) (toEv : α → Event) (hnd : keys.Nodup) (u : String)
    (hu : u ∈ (buildCumByKey keys rowsOf toEv).map (·.key)) {day : Nat}
    (hd : 1 ≤ day) :
    currentPoint ((buildCumByKey keys rowsOf toEv).filter (fun r => r.key = u)) day
      ≠ [] := by
  rw [List.mem_map] at hu
  obtain ⟨cr, hcr, hk⟩ := hu
  obtain ⟨hmem, hne, hser⟩ := mem_buildCumByKey hcr
  rw [hk] at hmem hne hser
  rw [buildCumByKey_filter keys rowsOf toEv hnd u, if_pos hmem, if_neg hne]
  have hmax : 1 ≤ maxDay ((rowsOf u).map toEv) := by
    by_contra hcon
    have h0 : maxDay ((rowsOf u).map toEv) = 0 := by omega
    have hlen := buildSeries_length u ((rowsOf u).map toEv)
    rw [h0, List.length_eq_zero] at hlen
    rw [hlen] at hser
    cases hser
  by_cases hle : day ≤ maxDay ((rowsOf u).map toEv)
  · rw [currentPoint_exact u _ hd hle]
    simp
  · rw [currentPoint_carry u _ hmax (by omega)]
    simp

/-- C2 (amended): in the contributor and reviewer views the labeled top-N
set is the first 7 entries of the groups ordered by the maximal cumulative
value of the series descending, so every labeled group's value is at least
every unlabeled group's value (the relative order of groups with equal
values is not specified by the program); its cardinality is min 7 (number
of nonempty groups); and in every frame each entry's label flag equals
membership of its key in that one set, fixed once per computation. -/
theorem c2_top_selection_amended (data : List RawRecord) (sel : List String)
    (y : Nat) (w : String) :
    (∀ p ∈ byUser_finalVals data sel y w, p.1 ∈ byUser_topN data sel y w →
      ∀ q ∈ byUser_finalVals data sel y w, q.1 ∉ byUser_topN data sel y w →
        q.2 ≤ p.2)
  ∧ (byUser_topN data sel y w).length = min 7 (byUser_finalVals data sel y w).length
  ∧ (∀ f ∈ (plot_cumulative_prs_by_user data sel y w).frames, ∀ e ∈ f,
      e.show_label = (byUser_topN data sel y w).contains e.key)
  ∧ (∀ p ∈ reviews_finalVals data sel y, p.1 ∈ reviews_topN data sel y →
      ∀ q ∈ reviews_finalVals data sel y, q.1 ∉ reviews_topN data sel y →
        q.2 ≤ p.2)
  ∧ (reviews_topN data sel y).length = min 7 (reviews_finalVals data sel y).length
  ∧ (∀ f ∈ (plot_cumulative_reviews_by_user data sel y).frames, ∀ e ∈ f,
      e.show_label = (reviews_topN data sel y).contains e.key) := by
  refine ⟨topNKeys_dominates _ 7 (groupbyMaxVal_keys_nodup _),
    topNKeys_length _ 7, ?_,
    topNKeys_dominates _ 7 (groupbyMaxVal_keys_nodup _),
    topNKeys_length _ 7, ?_⟩
  · intro f hf e he
    rw [plot_cumulative_prs_by_user] at hf
    by_cases h1 : sel.isEmpty
    · rw [if_pos h1] at hf
      cases hf
    rw [if_neg h1] at hf
    by_cases h2 : (byUser_df_year data sel y).isEmpty
    · rw [if_pos h2] at hf
      cases hf
    rw [if_neg h2] at hf
    by_cases h3 : (byUser_df_cum data sel y w).isEmpty
    · rw [if_pos h3] at hf
      cases hf
    rw [if_neg h3] at hf
    have hf' : f ∈ byUser_frames data sel y w := hf
    rw [byUser_frames, List.mem_map] at hf'
    obtain ⟨day, hday, rfl⟩ := hf'
    rw [List.mem_map] at he
    obtain ⟨u, hu, rfl⟩ := he
    have hpts : currentPoint ((byUser_df_cum data sel y w).filter
        (fun r => r.key = u)) day ≠ [] := by
      apply currentPoint_buildCum_ne (byUser_users data sel y)
        (byUser_rowsOf data sel y) (toEventW w) (sortedUniqueStr_nodup _) u
        (uniqueFirst_subset _ u hu) (sampleDays_one_le hday)
    simp [mkEntry, List.isEmpty_eq_false.mpr hpts]
  · intro f hf e he
    rw [plot_cumulative_reviews_by_user] at hf
    by_cases h1 : sel.isEmpty
    · rw [if_pos h1] at hf
      cases hf
    rw [if_neg h1] at hf
    by_cases h2 : (byUser_df_year data sel y).isEmpty
    · rw [if_pos h2] at hf
      cases hf
    rw [if_neg h2] at hf
    by_cases h3 : (reviews_records data sel y).isEmpty
    · rw [if_pos h3] at hf
      cases hf
    rw [if_neg h3] at hf
    by_cases h4 : (reviews_df_cum data sel y).isEmpty
    · rw [if_pos h4] at hf
      cases hf
    rw [if_neg h4] at hf
    have hf' : f ∈ reviews_frames data sel y := hf
    rw [reviews_frames, List.mem_map] at hf'
    obtain ⟨day, hday, rfl⟩ := hf'
    rw [List.mem_map] at he
    obtain ⟨u, hu, rfl⟩ := he
    have hpts : currentPoint ((reviews_df_cum data sel y).filter
        (fun r => r.key = u)) day ≠ [] := by
      apply currentPoint_buildCum_ne (reviews_users data sel y)
        (reviews_rowsOf data sel y) toEventReview (sortedUniqueStr_nodup _) u
        (uniqueFirst_subset _ u hu) (sampleDays_one_le hday)
    simp [mkEntry, List.isEmpty_eq_false.mpr hpts]

/-- Witness for the amended C2 at a concrete dataset. -/
theorem c2_top_selection_amended_witness :
    (byUser_topN dataC2 ["qgis_plugins"] 2025 "pr_count").length =
      min 7 (byUser_finalVals dataC2 ["qgis_plugins"] 2025 "pr_count").length :=
  (c2_top_selection_amended dataC2 ["qgis_plugins"] 2025 "pr_count").2.1

/-- C2 counterexample: on dataC2 under net_lines the code's labeled set
contains ua, whose series peaks at 10 but finishes at -5, while the set
the claim describes (first 7 by final cumulative value descending, ties by
group key ascending) excludes ua. -/
theorem c2_top_selection_counterexample :
    "ua" ∈ byUser_topN dataC2 ["qgis_plugins"] 2025 "net_lines"
  ∧ "ua" ∉ topNSpecClaim
      (specFinalVals (byUser_df_cum dataC2 ["qgis_plugins"] 2025 "net_lines")) 7 := by
  decide

end PRViz
